import Mathlib

/-!
Shallow embedding of the Label repository layer of the `rust-todo` repository
(`src/api/src/repositories/label.rs`) together with the handler fragment
relevant to the claims (`src/src/handlers.rs`, `src/api/src/main.rs`).

Modelling conventions:
* Rust `i32` ids are modelled as `Int` (no operation in scope approaches
  overflow, so wrap-around is not modelled).
* `anyhow::Result<T>` carrying `RepositoryError` is modelled as
  `Except RepositoryError T`.
* The in-memory store `HashMap<i32, Label>` is modelled as an association
  list `List (Int × Label)`.  A `HashMap` guarantees nothing about iteration
  order, so the order of the list models the (unspecified) iteration order of
  the hash map; any list with pairwise distinct keys is a legitimate
  representation of a reachable hash-map content.
* The database backend (`LabelRepositoryForDb`) runs SQL against the
  `labels(id pk, name unique)` table; it is modelled by an explicit table
  state (`DbState`): the stored rows plus the value of the id sequence that
  `insert ... returning *` draws from (a Postgres sequence is monotonically
  increasing and never reused).
* Each repository method is a pure state-passing function
  `state → args → result × state`, the sequentialisation of one call holding
  the lock (memory) or one statement/transaction (database).
-/

/-- Error taxonomy `RepositoryError` of the repository layer
(`src/api/src/repositories/mod.rs` via `use super::RepositoryError`). -/
inductive RepositoryError where
  | NotFound (id : Int)
  | Duplicate (id : Int)
  | Unexpected (detail : String)
deriving Repr, DecidableEq

/-- Entity `Label { id: i32, name: String }`
(`src/api/src/repositories/label.rs:14-18`). -/
structure Label where
  id : Int
  name : String
deriving Repr, DecidableEq

/-- Constructor `Label::new(id, name)` (`label.rs:145-149`). -/
def Label.new (id : Int) (name : String) : Label := ⟨id, name⟩

/-- Store type `type LabelDatas = HashMap<i32, Label>` (`label.rs:151`),
as an association list whose order stands for the hash map's unspecified
iteration order. -/
abbrev LabelDatas := List (Int × Label)

/-- Keys of the store (the `i32` keys of the `HashMap`). -/
def storeKeys (store : LabelDatas) : List Int := store.map (·.1)

/-- A list is a legitimate representation of a `HashMap` content iff its keys
are pairwise distinct (the only structural guarantee a hash map gives). -/
def validHashMap (store : LabelDatas) : Prop := (storeKeys store).Nodup

instance (store : LabelDatas) : Decidable (validHashMap store) := by
  unfold validHashMap; infer_instance

/-- Semantics of `HashMap::insert(k, v)`: the entry under `k` (if any) is
replaced, every other entry is kept.  Representation order is unspecified for
a hash map; this model drops the old entry and appends the new one. -/
def hashMapInsert (store : LabelDatas) (k : Int) (v : Label) : LabelDatas :=
  store.filter (fun p => p.1 ≠ k) ++ [(k, v)]

/-- Semantics of `store.iter().find(|(_key, label)| label.name == name)`
(`label.rs:178`), projected to the found `Label`. -/
def findByName (store : LabelDatas) (name : String) : Option Label :=
  (store.find? (fun p => p.2.name = name)).map (·.2)

/-- In-memory `create` (`label.rs:176-186`): under the write lock, if some
stored label already has the requested name the EXISTING label is returned
unchanged (an `Ok`, not a `Duplicate` error); otherwise the new id is
`store.len() as i32 + 1` and `Label::new(id, name)` is inserted under key
`id`. -/
def LabelRepositoryForMemory.create (store : LabelDatas) (name : String) :
    Except RepositoryError Label × LabelDatas :=
  match findByName store name with
  | some label => (Except.ok label, store)
  | none =>
      let id : Int := store.length + 1
      let label := Label.new id name
      (Except.ok label, hashMapInsert store id label)

/-- In-memory `all` (`label.rs:188-191`): `Vec::from_iter(store.values().cloned())`,
the stored labels in the hash map's iteration order. -/
def LabelRepositoryForMemory.all (store : LabelDatas) : List Label :=
  store.map (·.2)

/-- In-memory `delete` (`label.rs:193-197`): `store.remove(&id)` succeeds and
removes the entry iff key `id` is present, otherwise
`RepositoryError::NotFound(id)` via `ok_or`. -/
def LabelRepositoryForMemory.delete (store : LabelDatas) (i : Int) :
    Except RepositoryError Unit × LabelDatas :=
  if (storeKeys store).contains i then
    (Except.ok (), store.filter (fun p => p.1 ≠ i))
  else
    (Except.error (RepositoryError.NotFound i), store)

/-- State of the `labels` table for `LabelRepositoryForDb`: the rows plus the
next value of the id sequence backing `insert into labels ... returning *`. -/
structure DbState where
  rows : List Label
  nextId : Int
deriving Repr, DecidableEq

/-- The empty `labels` table with the id sequence at its start value 1. -/
def DbState.empty : DbState := ⟨[], 1⟩

/-- Database `create` (`label.rs:39-63`): `select * from labels where name = $1`
(`fetch_optional`); on a hit the call fails with `Duplicate(existing.id)`;
otherwise `insert into labels (name) values ($1) returning *` stores a row
whose id the sequence assigns. -/
def LabelRepositoryForDb.create (st : DbState) (name : String) :
    Except RepositoryError Label × DbState :=
  match st.rows.find? (fun l => l.name = name) with
  | some label => (Except.error (RepositoryError.Duplicate label.id), st)
  | none =>
      let label : Label := ⟨st.nextId, name⟩
      (Except.ok label, ⟨st.rows ++ [label], st.nextId + 1⟩)

/-- Comparison used to model `order by labels.id asc`. -/
def labelLe (a b : Label) : Prop := a.id ≤ b.id

instance : DecidableRel labelLe := fun a b => Int.decLe a.id b.id

instance : IsTotal Label labelLe := ⟨fun a b => Int.le_total a.id b.id⟩

instance : IsTrans Label labelLe := ⟨fun _ _ _ h h' => le_trans h h'⟩

/-- Database `all` (`label.rs:65-75`):
`select * from labels order by labels.id asc`. -/
def LabelRepositoryForDb.all (st : DbState) : List Label :=
  List.insertionSort labelLe st.rows

/-- Database `delete` (`label.rs:77-92`): `delete from labels where id=$1`
through sqlx `execute`.  An `execute` of a DELETE that matches no row is a
successful query with zero affected rows — sqlx raises `RowNotFound` only
from `fetch_one`, never from `execute` — so the `map_err` arm translating
`RowNotFound` to `NotFound(id)` at `label.rs:87` is unreachable and the call
returns `Ok(())` whether or not the id is present. -/
def LabelRepositoryForDb.delete (st : DbState) (i : Int) :
    Except RepositoryError Unit × DbState :=
  (Except.ok (), ⟨st.rows.filter (fun l => l.id ≠ i), st.nextId⟩)

/-- Client-visible operations of the `LabelRepository` trait that mutate the
store, used to quantify over call sequences. -/
inductive Op where
  | create (name : String)
  | delete (id : Int)
deriving Repr, DecidableEq

/-- One trait call against the in-memory backend, state part. -/
def memStep (store : LabelDatas) : Op → LabelDatas
  | .create name => (LabelRepositoryForMemory.create store name).2
  | .delete i => (LabelRepositoryForMemory.delete store i).2

/-- The in-memory store after a sequence of calls starting from the empty
store (`Arc::default()`, `label.rs:159-163`). -/
def memRun (ops : List Op) : LabelDatas := ops.foldl memStep []

-- Sanity examples (the crud scenario of `label.rs:200-225`).
example :
    (LabelRepositoryForMemory.create [] "label text").1 =
      Except.ok (Label.new 1 "label text") := rfl
example :
    LabelRepositoryForMemory.all (memRun [Op.create "label text"]) =
      [Label.new 1 "label text"] := rfl
example : (LabelRepositoryForMemory.delete (memRun [Op.create "t"]) 1).1 =
    Except.ok () := rfl

/-- Entity `Todo` as far as the POST /todos handler needs it (spec section 3):
id, text, completed flag and the materialized label sequence. -/
structure Todo where
  id : Int
  text : String
  completed : Bool
  labels : List Label
deriving Repr, DecidableEq

/-- Modelled from the spec: the api project's POST /todos handler
(`handlers::todo::create_todo`, routed in `create_app` at
`src/api/src/main.rs:56`) is not among the provided sources, only its router
is.  Per spec sections 4.4, 6 and 7 it maps the repository result to an HTTP
response: success to `201 Created` with the Todo as body, `NotFound(label)` to
`400 Bad Request`, and any other backend failure to `500`.  The response is
modelled as status code plus optional body. -/
def create_todo (result : Except RepositoryError Todo) : Nat × Option Todo :=
  match result with
  | Except.ok todo => (201, some todo)
  | Except.error (RepositoryError.NotFound _) => (400, none)
  | Except.error _ => (500, none)

/-- Sibling project's POST /todos handler (`src/src/handlers.rs:12-19`):
there `TodoRepository::create` returns the created `Todo` infallibly and the
handler always answers `(StatusCode::CREATED, Json(todo))`. -/
def handlers.create_todo (created : Todo) : Nat × Option Todo :=
  (201, some created)

/-- C1: The claim expects `Duplicate(existing_id)` from both backends on a
duplicate name.  The database backend does fail that way, but the in-memory
backend (`label.rs:178-180`) returns the existing label as a SUCCESS: with
label 1 named "a" stored, `create("a")` answers `Ok(Label 1 "a")`, not
`Err(Duplicate(1))`. -/
theorem C1_memory_returns_existing_on_duplicate :
    (LabelRepositoryForDb.create ⟨[Label.new 1 "a"], 2⟩ "a").1 =
      Except.error (RepositoryError.Duplicate 1)
  ∧ (LabelRepositoryForMemory.create [(1, Label.new 1 "a")] "a").1 =
      Except.ok (Label.new 1 "a") :=
  ⟨rfl, rfl⟩

/-- C2: The claim expects a monotonically increasing, never reused id counter,
but the in-memory backend assigns `store.len() + 1` (`label.rs:182`): after
create "a" the id 2 is assigned to "b", and after deleting label 1 a further
create "c" is assigned id 2 AGAIN. -/
theorem C2_id_reassigned_after_delete :
    (LabelRepositoryForMemory.create (memRun [Op.create "a"]) "b").1 =
      Except.ok (Label.new 2 "b")
  ∧ (LabelRepositoryForMemory.create
        (memRun [Op.create "a", Op.create "b", Op.delete 1]) "c").1 =
      Except.ok (Label.new 2 "c") :=
  ⟨rfl, rfl⟩

/-- C3: The backends are not substitutable: starting from empty state, the
call sequence create "a"; create "a" yields `Err(Duplicate(1))` on the second
call against the database backend but `Ok(Label 1 "a")` against the in-memory
backend. -/
theorem C3_backends_disagree_on_duplicate_create :
    (LabelRepositoryForDb.create
        (LabelRepositoryForDb.create DbState.empty "a").2 "a").1 =
      Except.error (RepositoryError.Duplicate 1)
  ∧ (LabelRepositoryForMemory.create
        (LabelRepositoryForMemory.create [] "a").2 "a").1 =
      Except.ok (Label.new 1 "a") :=
  ⟨rfl, rfl⟩

/-- C4: Deleting an absent id fails with `NotFound(id)` in the in-memory
backend, but the database backend's DELETE through sqlx `execute` succeeds
with zero affected rows (the `RowNotFound` mapping at `label.rs:87` is
unreachable): on the empty store, `delete(1)` answers `Ok(())` from the
database backend and `Err(NotFound(1))` from the in-memory one. -/
theorem C4_db_delete_absent_succeeds :
    (LabelRepositoryForDb.delete DbState.empty 1).1 = Except.ok ()
  ∧ (LabelRepositoryForMemory.delete [] 1).1 =
      Except.error (RepositoryError.NotFound 1) :=
  ⟨rfl, rfl⟩

/-- C8: Already the sequential interleaving create "a"; create "b";
delete 1; create "c" corrupts the in-memory store: the new label "c" is
assigned id 2, which duplicates the id of the live label "b", and the
insertion under the duplicated key silently destroys label "b" — afterwards
`all()` holds only `Label 2 "c"`. -/
theorem C8_sequential_interleaving_corrupts_store :
    LabelRepositoryForMemory.all
        (memRun [Op.create "a", Op.create "b", Op.delete 1, Op.create "c"]) =
      [Label.new 2 "c"] :=
  rfl

/-- C6: Label create is atomic on failure.  The database backend mutates
nothing when it returns an error (the `Duplicate` branch returns before the
INSERT), and the in-memory backend's create never returns an error at all (it
answers `Ok` in both of its branches), so no failing create ever changes the
stored label set. -/
theorem C6_create_atomic_on_failure (st : DbState) (store : LabelDatas)
    (name : String) :
    (∀ e, (LabelRepositoryForDb.create st name).1 = Except.error e →
      (LabelRepositoryForDb.create st name).2 = st)
  ∧ ∃ l, (LabelRepositoryForMemory.create store name).1 = Except.ok l := by
  constructor
  · intro e h
    unfold LabelRepositoryForDb.create at h ⊢
    cases hf : st.rows.find? (fun l => l.name = name) with
    | some l => simp [hf]
    | none => simp [hf] at h
  · unfold LabelRepositoryForMemory.create
    cases hf : findByName store name with
    | some l => exact ⟨l, by simp [hf]⟩
    | none => exact ⟨Label.new (store.length + 1) name, by simp [hf]⟩

/-- Witness for C6 at a concrete failing create: with label 1 named "a"
stored, the database create of "a" errors and leaves the table unchanged. -/
theorem C6_witness :
    (LabelRepositoryForDb.create ⟨[Label.new 1 "a"], 2⟩ "a").2 =
      ⟨[Label.new 1 "a"], 2⟩ :=
  (C6_create_atomic_on_failure ⟨[Label.new 1 "a"], 2⟩ [] "a").1
    (RepositoryError.Duplicate 1) rfl

/-- C7: The POST /todos handler answers `201 Created` with the created Todo
as body when the repository create succeeds and `400 Bad Request` when it
fails with `NotFound(label_id)`; the sibling project's handler, whose create
is infallible, always answers `201` with the created Todo. -/
theorem C7_post_todos_status_mapping (r : Except RepositoryError Todo) :
    (∀ t, r = Except.ok t → create_todo r = (201, some t))
  ∧ (∀ i, r = Except.error (RepositoryError.NotFound i) →
      create_todo r = (400, none))
  ∧ ∀ t, handlers.create_todo t = (201, some t) := by
  refine ⟨fun t h => ?_, fun i h => ?_, fun t => rfl⟩
  · subst h; rfl
  · subst h; rfl

/-- Witness for C7 at concrete repository results. -/
theorem C7_witness :
    create_todo (Except.ok ⟨1, "buy milk", false, [Label.new 1 "test label"]⟩) =
      (201, some ⟨1, "buy milk", false, [Label.new 1 "test label"]⟩)
  ∧ create_todo (Except.error (RepositoryError.NotFound 999)) = (400, none) :=
  ⟨(C7_post_todos_status_mapping
      (Except.ok ⟨1, "buy milk", false, [Label.new 1 "test label"]⟩)).1 _ rfl,
   (C7_post_todos_status_mapping
      (Except.error (RepositoryError.NotFound 999))).2.1 999 rfl⟩

/-- C10: In-memory delete has an exact frame: on success the resulting store
holds exactly the previous entries whose key differs from the deleted id, and
on failure the error is `NotFound(id)` and the store is untouched. -/
theorem C10_delete_exact_frame (store : LabelDatas) (i : Int) :
    ((LabelRepositoryForMemory.delete store i).1 = Except.ok () →
      ∀ p : Int × Label,
        p ∈ (LabelRepositoryForMemory.delete store i).2 ↔ p ∈ store ∧ p.1 ≠ i)
  ∧ ((LabelRepositoryForMemory.delete store i).1 ≠ Except.ok () →
      (LabelRepositoryForMemory.delete store i).1 =
          Except.error (RepositoryError.NotFound i)
        ∧ (LabelRepositoryForMemory.delete store i).2 = store) := by
  unfold LabelRepositoryForMemory.delete
  by_cases hc : i ∈ storeKeys store <;> simp [hc, List.mem_filter]

/-- Witness for C10: deleting key 1 from the singleton store removes that
entry, and deleting from the empty store reports `NotFound(1)` and leaves the
store empty. -/
theorem C10_witness :
    ((1, Label.new 1 "a") ∈
        (LabelRepositoryForMemory.delete [(1, Label.new 1 "a")] 1).2 ↔
      (1, Label.new 1 "a") ∈ ([(1, Label.new 1 "a")] : LabelDatas) ∧
        (1 : Int) ≠ 1)
  ∧ ((LabelRepositoryForMemory.delete ([] : LabelDatas) 1).1 =
        Except.error (RepositoryError.NotFound 1)
      ∧ (LabelRepositoryForMemory.delete ([] : LabelDatas) 1).2 = []) :=
  ⟨(C10_delete_exact_frame [(1, Label.new 1 "a")] 1).1 rfl (1, Label.new 1 "a"),
   (C10_delete_exact_frame [] 1).2 (fun h => Except.noConfusion h)⟩

/-- C5 counterexample: the claim asserts that `all()` is ordered by ascending
id for EVERY store state of the in-memory backend, but the hash map iterates
in no particular order.  The content {1 ↦ Label 1 "a", 2 ↦ Label 2 "b"} held
in the iteration order 2, 1 is a legitimate hash-map state (its keys are
pairwise distinct and key-consistent), and `all()` on it is `[Label 2 "b",
Label 1 "a"]`, which is not ascending by id. -/
theorem C5_counterexample :
    validHashMap [(2, Label.new 2 "b"), (1, Label.new 1 "a")]
  ∧ (∀ p ∈ ([(2, Label.new 2 "b"), (1, Label.new 1 "a")] : LabelDatas),
      p.2.id = p.1)
  ∧ ¬ List.Sorted labelLe
      (LabelRepositoryForMemory.all
        [(2, Label.new 2 "b"), (1, Label.new 1 "a")]) := by
  refine ⟨by decide, by decide, ?_⟩
  intro h
  have := List.rel_of_sorted_cons h (Label.new 1 "a") (by simp [LabelRepositoryForMemory.all])
  simp [labelLe, Label.new] at this

/-- C5 amended: the database backend's `all()` returns the stored rows sorted
ascending by id (the empty table yields the empty sequence); the in-memory
backend's `all()` returns exactly the stored labels, but in the hash map's
unspecified iteration order rather than sorted by id. -/
theorem C5_all_sorted_db_permutation_memory (st : DbState) (store : LabelDatas) :
    List.Sorted labelLe (LabelRepositoryForDb.all st)
  ∧ (LabelRepositoryForDb.all st).Perm st.rows
  ∧ (LabelRepositoryForMemory.all store).Perm (store.map (·.2))
  ∧ LabelRepositoryForDb.all DbState.empty = []
  ∧ LabelRepositoryForMemory.all ([] : LabelDatas) = [] :=
  ⟨List.sorted_insertionSort labelLe st.rows,
   List.perm_insertionSort labelLe st.rows,
   List.Perm.refl _, rfl, rfl⟩

/-- Invariant of the in-memory store maintained by every trait call: keys are
pairwise distinct, every entry's label carries its own key as id, and no two
stored labels share a name. -/
def storeInv (store : LabelDatas) : Prop :=
  (storeKeys store).Nodup
  ∧ (∀ p ∈ store, p.2.id = p.1)
  ∧ (store.map (·.2.name)).Pairwise (· ≠ ·)

theorem storeInv_nil : storeInv [] := by
  simp [storeInv, storeKeys]

theorem storeInv_filter (store : LabelDatas) (q : Int × Label → Bool)
    (h : storeInv store) : storeInv (store.filter q) := by
  obtain ⟨hk, hc, hn⟩ := h
  refine ⟨?_, fun p hp => hc p (List.mem_of_mem_filter hp), ?_⟩
  · exact hk.sublist ((List.filter_sublist store).map _)
  · exact hn.sublist ((List.filter_sublist store).map _)

theorem findByName_none (store : LabelDatas) (name : String)
    (h : findByName store name = none) :
    ∀ p ∈ store, p.2.name ≠ name := by
  unfold findByName at h
  rw [Option.map_eq_none'] at h
  intro p hp
  have := List.find?_eq_none.1 h p hp
  simpa using this

theorem storeInv_insert (store : LabelDatas) (k : Int) (name : String)
    (h : storeInv store) (hfresh : ∀ p ∈ store, p.2.name ≠ name) :
    storeInv (hashMapInsert store k (Label.new k name)) := by
  obtain ⟨hk, hc, hn⟩ := h
  have hsub : (store.filter (fun p => p.1 ≠ k)).Sublist store :=
    List.filter_sublist store
  unfold hashMapInsert
  refine ⟨?_, ?_, ?_⟩
  · simp only [storeKeys, List.map_append, List.map_cons, List.map_nil]
    rw [List.nodup_append]
    refine ⟨hk.sublist (hsub.map _), List.nodup_singleton k, ?_⟩
    intro a ha
    simp only [List.mem_map] at ha
    obtain ⟨p, hp, rfl⟩ := ha
    have := (List.mem_filter.1 hp).2
    simpa using this
  · intro p hp
    rcases List.mem_append.1 hp with hp' | hp'
    · exact hc p (List.mem_of_mem_filter hp')
    · simp only [List.mem_singleton] at hp'
      subst hp'
      rfl
  · simp only [List.map_append, List.map_cons, List.map_nil]
    rw [List.pairwise_append]
    refine ⟨hn.sublist (hsub.map _), List.pairwise_singleton _ _, ?_⟩
    intro a ha b hb
    simp only [List.mem_map] at ha
    simp only [List.mem_singleton] at hb
    obtain ⟨p, hp, rfl⟩ := ha
    subst hb
    exact hfresh p (List.mem_of_mem_filter hp)

theorem storeInv_step (store : LabelDatas) (op : Op) (h : storeInv store) :
    storeInv (memStep store op) := by
  cases op with
  | create name =>
      simp only [memStep, LabelRepositoryForMemory.create]
      cases hf : findByName store name with
      | some l => exact h
      | none =>
          exact storeInv_insert store _ name h (findByName_none store name hf)
  | delete i =>
      simp only [memStep, LabelRepositoryForMemory.delete]
      split
      · exact storeInv_filter store _ h
      · exact h

theorem memRun_inv (ops : List Op) : storeInv (memRun ops) := by
  suffices h : ∀ store, storeInv store → storeInv (ops.foldl memStep store) from
    h [] storeInv_nil
  induction ops with
  | nil => exact fun store hs => hs
  | cons op ops ih =>
      intro store hs
      exact ih (memStep store op) (storeInv_step store op hs)

/-- C9: After any sequence of create and delete calls from the empty store,
every entry of the in-memory store carries its own key as its label id, and
no two stored labels share a name. -/
theorem C9_key_consistency_and_name_uniqueness (ops : List Op) :
    (∀ p ∈ memRun ops, p.2.id = p.1)
  ∧ ((memRun ops).map (·.2.name)).Pairwise (· ≠ ·) :=
  ⟨(memRun_inv ops).2.1, (memRun_inv ops).2.2⟩

/-- Witness for C9 on the two-create run. -/
theorem C9_witness :
    ((1 : Int), Label.new 1 "a").2.id = ((1 : Int), Label.new 1 "a").1
  ∧ ((memRun [Op.create "a", Op.create "b"]).map (·.2.name)).Pairwise
      (· ≠ ·) :=
  ⟨(C9_key_consistency_and_name_uniqueness [Op.create "a"]).1
      (1, Label.new 1 "a") (by decide),
   (C9_key_consistency_and_name_uniqueness [Op.create "a", Op.create "b"]).2⟩
